import Mathlib

/-!
Verification of the request-dispatch layer of the etherscan-node client
(`src/utils/http-client.ts`, `src/index.ts`, `src/modules/base.ts`,
`src/modules/accounts.ts`), shallowly embedded in Lean.

The embedding keeps the source names where possible: `isAPIResponse`,
`makeRequest`, `setRateLimit`, `processNextRequest`, and so on.  JavaScript
values parsed from JSON response bodies are modelled by the `Json` type;
the three error classes of `src/types/index.ts` by `EtherscanError`; the
outcome of one `fetch` exchange by `FetchResult`.
-/

namespace EtherscanNode

/-- Parsed JSON values, as produced by `JSON.parse` (object keys unique,
last-wins duplicates already resolved by the parser). -/
inductive Json where
  | null
  | bool (b : Bool)
  | num (n : Int)
  | str (s : String)
  | arr (elems : List Json)
  | obj (fields : List (String × Json))

/-- JavaScript truthiness of a parsed JSON value (`data &&` in the source). -/
def truthy : Json → Bool
  | Json.null => false
  | Json.bool b => b
  | Json.num n => n != 0
  | Json.str s => s != ""
  | Json.arr _ => true
  | Json.obj _ => true

/-- `typeof data === "object"` for a parsed JSON value: true exactly for
objects, arrays and `null`; the source guards `null` out via truthiness. -/
def isObjectTypeof : Json → Bool
  | Json.null => true
  | Json.arr _ => true
  | Json.obj _ => true
  | _ => false

/-- Property lookup `data[k]`: `none` models an absent property
(JavaScript `undefined`). -/
def Json.getField : Json → String → Option Json
  | Json.obj fields, k => (fields.find? (fun p => p.1 == k)).map Prod.snd
  | _, _ => none

/-- The `in` operator: `k in data` (property presence). -/
def Json.hasField (d : Json) (k : String) : Bool :=
  (d.getField k).isSome

/-- `HttpClient.isAPIResponse` (src/utils/http-client.ts lines 226-234):
`data && typeof data === "object" && "status" in data && "message" in data
&& "result" in data`. -/
def isAPIResponse (data : Json) : Bool :=
  truthy data && isObjectTypeof data &&
    data.hasField "status" && data.hasField "message" && data.hasField "result"

/-- The three error classes of `src/types/index.ts`:
`EtherscanAPIError(code, message)`, `EtherscanValidationError(message)`,
`EtherscanNetworkError(message)`. -/
inductive EtherscanError where
  | api (code : Json) (message : String)
  | validation (message : String)
  | network (message : String)

/-- Result of `response.json()`: either a parsed body or a JSON parse
exception with its message. -/
inductive BodyOutcome where
  | parsed (body : Json)
  | parseError (msg : String)

/-- Outcome of the `fetch` exchange as observed by `makeRequest`:
a settled HTTP response (with the body-read outcome), an `AbortError`
`DOMException` raised because the timeout fired, or any other rejection
(DNS failure, connection refused, ...) carrying its message. -/
inductive FetchResult where
  | response (status : Nat) (statusText : String) (body : BodyOutcome)
  | abortError
  | otherError (msg : String)

/-- JavaScript `String.prototype.startsWith(search)`: the string begins
with `search` (executable prefix test over the character lists). -/
def strStartsWith (s search : String) : Bool :=
  List.isPrefixOf search.toList s.toList

/-- `response.ok`: HTTP status in the inclusive range 200-299. -/
def responseOk (status : Nat) : Bool :=
  200 ≤ status && status ≤ 299

/-- The envelope check of `makeRequest` (src/utils/http-client.ts lines
126-137) applied to a successfully parsed body:
if `isAPIResponse(data) && data.status === "0" &&
data.message.startsWith("NOTOK")` then `throw EtherscanAPIError(data.result,
data.message)`, else the body is the success value.  When `data.message` is
present but not a string, `data.message.startsWith` raises a `TypeError`,
which the surrounding catch wraps as a network error; the exact JavaScript
runtime message text is abstracted as "TypeError" since nothing depends
on it. -/
def classifyBody (data : Json) : Except EtherscanError Json :=
  if isAPIResponse data then
    match data.getField "status", data.getField "message" with
    | some (Json.str st), some msgVal =>
        if st == "0" then
          match msgVal with
          | Json.str m =>
              if strStartsWith m "NOTOK" then
                Except.error
                  (EtherscanError.api ((data.getField "result").getD Json.null) m)
              else Except.ok data
          | _ => Except.error (EtherscanError.network "Request failed: TypeError")
        else Except.ok data
    | _, _ => Except.ok data
  else Except.ok data

/-- `HttpClient.makeRequest` (src/utils/http-client.ts lines 106-158),
as a function of the client timeout and the observed fetch outcome:
  * non-2xx status: `EtherscanNetworkError("Request failed with status
    {status}: {statusText}")` (the body is never read);
  * 2xx with unparseable body: the parse exception is caught and wrapped
    as `EtherscanNetworkError("Request failed: {message}")`;
  * 2xx with parsed body: the envelope check (`classifyBody`);
  * timeout abort (`DOMException` named `AbortError`):
    `EtherscanNetworkError("Request timed out after {timeout}ms")`;
  * any other rejection: `EtherscanNetworkError("Request failed: {message}")`. -/
def makeRequest (timeout : Nat) (ex : FetchResult) : Except EtherscanError Json :=
  match ex with
  | FetchResult.response st text body =>
      if responseOk st then
        match body with
        | BodyOutcome.parsed data => classifyBody data
        | BodyOutcome.parseError m =>
            Except.error (EtherscanError.network ("Request failed: " ++ m))
      else
        Except.error (EtherscanError.network
          ("Request failed with status " ++ toString st ++ ": " ++ text))
  | FetchResult.abortError =>
      Except.error (EtherscanError.network
        ("Request timed out after " ++ toString timeout ++ "ms"))
  | FetchResult.otherError m =>
      Except.error (EtherscanError.network ("Request failed: " ++ m))

/-- Upper-case hexadecimal digit, as used by `encodeURIComponent`. -/
def hexDigitChar (n : Nat) : Char :=
  if n < 10 then Char.ofNat (48 + n) else Char.ofNat (55 + n)

/-- Percent-escape of one byte, upper-case (`%XY`). -/
def pctByte (b : Nat) : String :=
  String.mk [Char.ofNat 37, hexDigitChar (b / 16), hexDigitChar (b % 16)]

/-- UTF-8 encoding of one code point (Lean `Char` excludes surrogates, the
only inputs on which `encodeURIComponent` throws). -/
def utf8Bytes (c : Char) : List Nat :=
  let n := c.toNat
  if n < 128 then [n]
  else if n < 2048 then [192 + n / 64, 128 + n % 64]
  else if n < 65536 then [224 + n / 4096, 128 + (n / 64) % 64, 128 + n % 64]
  else [240 + n / 262144, 128 + (n / 4096) % 64, 128 + (n / 64) % 64, 128 + n % 64]

/-- The characters `encodeURIComponent` leaves unescaped: the ASCII
letters and digits, hyphen, underscore, dot, bang, tilde, asterisk,
apostrophe (matched numerically, code point 39) and parentheses. -/
def isUnreservedURI (c : Char) : Bool :=
  (65 ≤ c.toNat && c.toNat ≤ 90) || (97 ≤ c.toNat && c.toNat ≤ 122) ||
  (48 ≤ c.toNat && c.toNat ≤ 57) ||
  c == Char.ofNat 45 || c == Char.ofNat 95 || c == Char.ofNat 46 ||
  c == Char.ofNat 33 || c == Char.ofNat 126 || c == Char.ofNat 42 ||
  c.toNat == 39 || c == Char.ofNat 40 || c == Char.ofNat 41

/-- JavaScript `encodeURIComponent`: unreserved characters pass through,
everything else is percent-escaped byte-wise in UTF-8. -/
def encodeURIComponent (s : String) : String :=
  String.join (s.toList.map (fun c =>
    if isUnreservedURI c then String.singleton c
    else String.join ((utf8Bytes c).map pctByte)))

/-- One value of the parameter record accepted by `HttpClient.get`:
`string | number | boolean | undefined` (plus `null`, which the loosely
typed module helpers can feed through `Record<string, any>`). -/
inductive ParamValue where
  | str (s : String)
  | num (n : Int)
  | bool (b : Bool)
  | null
  | undef
deriving DecidableEq

/-- JavaScript `String(value)` on a parameter value. -/
def stringOfParam : ParamValue → String
  | ParamValue.str s => s
  | ParamValue.num n => toString n
  | ParamValue.bool b => if b then "true" else "false"
  | ParamValue.null => "null"
  | ParamValue.undef => "undefined"

/-- The encoded `key=value` segments built by `HttpClient.get`
(src/utils/http-client.ts lines 47-58): `Object.entries(params)` in
insertion order, entries with `undefined` values filtered out, the rest
mapped to `encodeURIComponent(key)=encodeURIComponent(String(value))`. -/
def queryPairs (params : List (String × ParamValue)) : List String :=
  (params.filter (fun p => !(p.2 == ParamValue.undef))).map
    (fun p => encodeURIComponent p.1 ++ "=" ++ encodeURIComponent (stringOfParam p.2))

/-- The query string of `HttpClient.get`: the segments joined by `&`. -/
def buildQuery (params : List (String × ParamValue)) : String :=
  String.intercalate "&" (queryPairs params)

/-- The full URL built by `HttpClient.get` (lines 59-61): base URL, path,
and — when the query string is non-empty — a `&` or `?` separator chosen by
whether the path already contains a `?`. -/
def buildUrl (baseUrl path : String) (params : List (String × ParamValue)) : String :=
  let q := buildQuery params
  baseUrl ++ path ++
    (if q != "" then (if path.contains (Char.ofNat 63) then "&" else "?") ++ q else "")

/-- `HttpClient.get` end to end: build the URL, perform the exchange
(`respond` maps the outbound URL to the observed fetch outcome) and
classify the response with `makeRequest`.  Whether the call went through
the rate limiter or not does not change this value. -/
def httpClientGet (baseUrl path : String) (params : List (String × ParamValue))
    (timeout : Nat) (respond : String → FetchResult) : Except EtherscanError Json :=
  makeRequest timeout (respond (buildUrl baseUrl path params))

/-- Hexadecimal character test used by the address regex of
`BaseModule.validateAddress`. -/
def isHexChar (c : Char) : Bool :=
  (48 ≤ c.toNat && c.toNat ≤ 57) || (97 ≤ c.toNat && c.toNat ≤ 102) ||
  (65 ≤ c.toNat && c.toNat ≤ 70)

/-- `BaseModule.validateAddress`: the regex `0x` followed by exactly 40
hexadecimal characters. -/
def validAddress (a : String) : Bool :=
  a.length == 42 && strStartsWith a "0x" && (a.toList.drop 2).all isHexChar

/-- `AccountsModule.getBalance` (src/modules/accounts.ts lines 39-53):
validate the address, merge `module`/`action`/`apikey` with the caller
parameters (`BaseModule.createParams`), issue `httpClient.get` with type
`APIResponse<string>`, and return `response.result` — the façade, not the
dispatcher, unwraps the envelope.  An absent `result` property would
surface as JavaScript `undefined`, modelled by `none`. -/
def getBalance (apiKey address : String) (tag : Option String)
    (baseUrl : String) (timeout : Nat) (respond : String → FetchResult) :
    Except EtherscanError (Option Json) :=
  if !(validAddress address) then
    Except.error (EtherscanError.validation
      ("Invalid Ethereum address format: " ++ address))
  else
    let params : List (String × ParamValue) :=
      [("module", ParamValue.str "account"), ("action", ParamValue.str "balance"),
       ("apikey", ParamValue.str apiKey), ("address", ParamValue.str address),
       ("tag", ParamValue.str (tag.getD "latest"))]
    (httpClientGet baseUrl "" params timeout respond).map
      (fun data => data.getField "result")

/-!
## The rate limiter as a labelled transition system

`HttpClient` instance state (src/utils/http-client.ts lines 16-31) plus the
observables needed to state the claims.  JavaScript runs the callback
bodies to completion on one event loop, so each transition below is one
synchronous stretch of the source between suspension points:

  * `rateLimitEnqueue` — the synchronous part of `rateLimit` (lines
    196-203): push `executeRequest` onto `requestQueue`; if
    `processingQueue` is false, run `processNextRequest` at once.
  * `dispatchCall` — `processNextRequest` shifts the head closure and
    invokes it; `executeRequest` (lines 166-194) then either finds
    `requestsThisSecond >= maxRequestsPerSecond` and suspends on
    `setTimeout(r, 1000)` (the call becomes `blocked` with an absolute wake
    deadline), or admits the call: increment the counter, schedule the
    window-reset timer if absent, and start the transport `fn()`.
  * the `wake` step — resumption after the 1000ms sleep: zero the counter,
    then the same admission stretch.
  * the `timerFire` step — the reset timer callback (lines 178-183): zero
    the counter and clear the timer handle.
  * the `settle` step — the transport promise settles; the outcome is
    recorded (resolve/reject) and the `finally` block runs
    `processNextRequest` again.

Ghost observables: `admitted` records (call, time) in admission order
(admission = transport start), `outcomes` the settled results, `arrivals`
the call ids in queue-append order.  Times are in milliseconds.
-/

structure RLState where
  baseUrl : String
  timeoutMs : Nat
  rateLimitEnabled : Bool
  maxPerSec : Nat
  queue : List Nat
  processing : Bool
  count : Nat
  timer : Option Nat
  blocked : Option (Nat × Nat)
  inFlight : List Nat
  now : Nat
  admitted : List (Nat × Nat)
  outcomes : List (Nat × Except EtherscanError Json)
  arrivals : List Nat

/-- The admission stretch of `executeRequest` (lines 173-187):
`requestsThisSecond++`; `if (!rateLimitTimer)` schedule the 1000ms reset
timer; start the transport call. -/
def admitCall (s : RLState) (c : Nat) : RLState :=
  { s with
    count := s.count + 1
    timer := some (s.timer.getD (s.now + 1000))
    inFlight := s.inFlight ++ [c]
    admitted := s.admitted ++ [(c, s.now)] }

/-- Head-of-queue execution: if `requestsThisSecond >= maxRequestsPerSecond`
the call suspends for a fixed 1000ms (lines 167-172), else it is admitted. -/
def dispatchCall (s : RLState) (c : Nat) : RLState :=
  if s.maxPerSec ≤ s.count then { s with blocked := some (c, s.now + 1000) }
  else admitCall s c

/-- `HttpClient.processNextRequest` (lines 209-221): empty queue marks the
drain loop idle; otherwise mark it busy, shift the head and invoke it. -/
def processNextRequest (s : RLState) : RLState :=
  match s.queue with
  | [] => { s with processing := false }
  | c :: rest => dispatchCall { s with processing := true, queue := rest } c

/-- The synchronous part of `rateLimit` (lines 196-203): append the call,
then start the drain loop if it is idle (`processingQueue` is unchanged by
the push, so the check is on the current flag). -/
def rateLimitEnqueue (s : RLState) (c : Nat) : RLState :=
  if s.processing then
    { s with queue := s.queue ++ [c], arrivals := s.arrivals ++ [c] }
  else
    processNextRequest { s with queue := s.queue ++ [c], arrivals := s.arrivals ++ [c] }

/-- `HttpClient.setRateLimit` (lines 36-42). -/
def setRateLimit (s : RLState) (enabled : Bool) (maxPerSec : Nat) : RLState :=
  { s with rateLimitEnabled := enabled, maxPerSec := maxPerSec }

/-- Event labels: each is one event-loop callback, stamped with the time at
which it runs. -/
inductive Label where
  | arrive (c : Nat) (t : Nat)
  | timerFire (t : Nat)
  | wake (t : Nat)
  | settle (c : Nat) (ex : FetchResult) (t : Nat)
  | reconfig (enabled : Bool) (m : Nat) (t : Nat)

/-- One event-loop callback of the rate-limited client.  Timer and wake
callbacks run at their scheduled deadlines; arrivals, transport
settlements and reconfigurations may happen at any non-decreasing time. -/
inductive Step : RLState → Label → RLState → Prop where
  | arrive {s : RLState} {c t : Nat}
      (hen : s.rateLimitEnabled = true) (ht : s.now ≤ t) :
      Step s (Label.arrive c t) (rateLimitEnqueue { s with now := t } c)
  | timerFire {s : RLState} {t : Nat}
      (hd : s.timer = some t) (ht : s.now ≤ t) :
      Step s (Label.timerFire t) { s with now := t, count := 0, timer := none }
  | wake {s : RLState} {c t : Nat}
      (hb : s.blocked = some (c, t)) (ht : s.now ≤ t) :
      Step s (Label.wake t)
        (admitCall { s with now := t, count := 0, blocked := none } c)
  | settle {s : RLState} {c : Nat} {ex : FetchResult} {t : Nat}
      (hc : c ∈ s.inFlight) (ht : s.now ≤ t) :
      Step s (Label.settle c ex t)
        (processNextRequest
          { s with
            now := t
            inFlight := s.inFlight.erase c
            outcomes := s.outcomes ++ [(c, makeRequest s.timeoutMs ex)] })
  | reconfig {s : RLState} {e : Bool} {m t : Nat} (ht : s.now ≤ t) :
      Step s (Label.reconfig e m t)
        { s with now := t, rateLimitEnabled := e, maxPerSec := m }

/-- Finite executions of the transition system. -/
inductive Trace : RLState → List Label → RLState → Prop where
  | nil {s : RLState} : Trace s [] s
  | cons {s s1 s2 : RLState} {l : Label} {ls : List Label} :
      Step s l s1 → Trace s1 ls s2 → Trace s (l :: ls) s2

/-- A freshly constructed `HttpClient` (lines 16-31): field initializers
`rateLimitEnabled = true`, `maxRequestsPerSecond = 5`, empty queue, idle
drain loop, zero counter, no timer; `timeout = options.timeout || 30000`. -/
def newHttpClient (baseUrl : String) (timeout : Option Nat) : RLState :=
  { baseUrl := baseUrl
    timeoutMs := match timeout with
      | some t => if t == 0 then 30000 else t
      | none => 30000
    rateLimitEnabled := true
    maxPerSec := 5
    queue := []
    processing := false
    count := 0
    timer := none
    blocked := none
    inFlight := []
    now := 0
    admitted := []
    outcomes := []
    arrivals := [] }

/-- A client at rest with a chosen rate-limit configuration, the start
state used by the trace theorems. -/
def initRL (enabled : Bool) (m timeout : Nat) : RLState :=
  setRateLimit (newHttpClient "" (some timeout)) enabled m

/-!
## The SDK shell (`src/index.ts`)

`EtherscanSDK` owns a private `httpClient` field and nine module instances;
each module (`BaseModule`, src/modules/base.ts) captures the `HttpClient`
reference passed to its constructor.  Object identity is modelled by a heap
(`clients`, a list of all `HttpClient` instances ever constructed) with the
SDK field and the module-captured reference as indices into it.
-/

/-- `V2_API_URL` of src/constants.ts. -/
def v2ApiUrl : String := "https://api.etherscan.io/v2/api"

/-- `resolveAPIURL` (src/index.ts): v1 networks map through `V1_API_URLS`,
v2 appends the chain id to `V2_API_URL`.  The static tables are elided to
the mainnet rows, the only entries the theorems exercise. -/
def resolveAPIURL (version network : String) : String :=
  if version == "v1" then
    if network == "mainnet" then "https://api.etherscan.io/api" else ""
  else
    v2ApiUrl ++ "?chainid=" ++ (if network == "mainnet" then "1" else "")

structure SDKOptions where
  apiKey : String
  network : Option String
  version : Option String
  timeout : Option Nat
  rateLimitEnabled : Option Bool
  maxRequestsPerSecond : Option Nat

structure SDKState where
  apiKey : String
  network : String
  version : String
  clients : List RLState
  httpClientIdx : Nat
  moduleClientIdx : Nat

/-- The `EtherscanSDK` constructor (src/index.ts): validate the key and the
network, build the `HttpClient`, apply `setRateLimit` only when
`options.rateLimitEnabled !== undefined` (with
`options.maxRequestsPerSecond || 5`), then construct the modules — all of
which capture the current `httpClient` reference.  The supported-network
table is elided to mainnet, the only network the theorems use. -/
def constructSDK (o : SDKOptions) : Except EtherscanError SDKState :=
  if o.apiKey == "" then
    Except.error (EtherscanError.validation "API key is required")
  else
    let network := o.network.getD "mainnet"
    if !(network == "mainnet") then
      Except.error (EtherscanError.validation "Invalid network specified")
    else
      let version := o.version.getD "v2"
      let client0 := newHttpClient (resolveAPIURL version network) o.timeout
      let client0 := match o.rateLimitEnabled with
        | some e =>
            setRateLimit client0 e
              (match o.maxRequestsPerSecond with
               | some m => if m == 0 then 5 else m
               | none => 5)
        | none => client0
      Except.ok
        { apiKey := o.apiKey, network := network, version := version,
          clients := [client0], httpClientIdx := 0, moduleClientIdx := 0 }

/-- `EtherscanSDK.setTimeout` (src/index.ts lines 144-153): reject
non-positive timeouts, otherwise assign a freshly constructed `HttpClient`
to the `httpClient` field.  The module instances are not touched, so their
captured reference still points at the old client. -/
def setTimeoutSDK (sdk : SDKState) (timeout : Int) : Except EtherscanError SDKState :=
  if timeout ≤ 0 then
    Except.error (EtherscanError.validation "Timeout must be a positive integer")
  else
    Except.ok
      { sdk with
        clients := sdk.clients ++
          [newHttpClient (resolveAPIURL sdk.version sdk.network) (some timeout.toNat)]
        httpClientIdx := sdk.clients.length }

/-- The client stored in the SDK `httpClient` field. -/
def fieldClient (sdk : SDKState) : RLState :=
  sdk.clients.getD sdk.httpClientIdx (newHttpClient "" none)

/-- The client captured by the module instances at construction
(`BaseModule.httpClient`, a `readonly` field): the one every façade call
(`sdk.accounts.getBalance` and the rest) actually dispatches through. -/
def moduleClient (sdk : SDKState) : RLState :=
  sdk.clients.getD sdk.moduleClientIdx (newHttpClient "" none)

/-!
## Structural invariant of the drain loop
-/

/-- The id of the call suspended in the 1000ms rate-limit sleep, if any. -/
def blockedIds : Option (Nat × Nat) → List Nat
  | none => []
  | some bc => [bc.1]

/-- Reachable-state invariant of the rate limiter:
  * an idle drain loop means no queued, suspended or in-flight call;
  * at most one transport call is in flight, and none while a call is
    suspended in the rate-limit sleep;
  * the arrival order decomposes as served calls (in admission order),
    then the suspended call, then the queue — FIFO;
  * admission times are monotone and never in the future. -/
def rlInv (s : RLState) : Prop :=
  (s.processing = false → s.queue = [] ∧ s.blocked = none ∧ s.inFlight = [])
  ∧ s.inFlight.length ≤ 1
  ∧ (s.blocked ≠ none → s.inFlight = [])
  ∧ s.arrivals = s.admitted.map Prod.fst ++ blockedIds s.blocked ++ s.queue
  ∧ List.Pairwise (fun a b => a ≤ b) (s.admitted.map Prod.snd)
  ∧ (∀ p ∈ s.admitted, p.2 ≤ s.now)

theorem mem_length_le_one {c : Nat} {l : List Nat}
    (hc : c ∈ l) (hl : l.length ≤ 1) : l = [c] := by
  cases l with
  | nil => cases hc
  | cons a as =>
    cases as with
    | nil =>
      cases hc with
      | head => rfl
      | tail _ h => cases h
    | cons b bs => simp at hl

theorem pairwise_snoc_le {l : List Nat} {t : Nat}
    (h : List.Pairwise (fun a b => a ≤ b) l) (hall : ∀ a ∈ l, a ≤ t) :
    List.Pairwise (fun a b => a ≤ b) (l ++ [t]) := by
  rw [List.pairwise_append]
  refine ⟨h, List.pairwise_singleton _ _, ?_⟩
  intro a ha b hb
  simp only [List.mem_singleton] at hb
  subst hb
  exact hall a ha

theorem admitted_snoc_pairwise {ad : List (Nat × Nat)} {c t now : Nat}
    (h5 : List.Pairwise (fun a b => a ≤ b) (ad.map Prod.snd))
    (h6 : ∀ p ∈ ad, p.2 ≤ now) (ht : now ≤ t) :
    List.Pairwise (fun a b => a ≤ b) ((ad ++ [(c, t)]).map Prod.snd) := by
  rw [List.map_append]
  refine pairwise_snoc_le h5 ?_
  intro a ha
  rcases List.mem_map.mp ha with ⟨p, hp, rfl⟩
  exact le_trans (h6 p hp) ht

theorem admitted_snoc_le {ad : List (Nat × Nat)} {c t now : Nat}
    (h6 : ∀ p ∈ ad, p.2 ≤ now) (ht : now ≤ t) :
    ∀ p ∈ ad ++ [(c, t)], p.2 ≤ t := by
  intro p hp
  rcases List.mem_append.mp hp with h | h
  · exact le_trans (h6 p h) ht
  · simp only [List.mem_singleton] at h
    subst h
    exact le_refl t

theorem rlInv_init (e : Bool) (m timeout : Nat) : rlInv (initRL e m timeout) := by
  refine ⟨?_, ?_, ?_, ?_, ?_, ?_⟩
  · intro _mm
    exact ⟨rfl, rfl, rfl⟩
  · exact Nat.zero_le 1
  · intro _mm
    exact rfl
  · exact rfl
  · exact List.Pairwise.nil
  · intro p hp
    cases hp

theorem rlInv_step {s s' : RLState} {l : Label}
    (inv : rlInv s) (st : Step s l s') : rlInv s' := by
  obtain ⟨h1, h2, h3, h4, h5, h6⟩ := inv
  cases st with
  | arrive hen ht =>
    rename_i c t
    by_cases hp : s.processing = true
    · have hred : rateLimitEnqueue { s with now := t } c =
          { s with
            now := t
            queue := s.queue ++ [c]
            arrivals := s.arrivals ++ [c] } := by
        simp [rateLimitEnqueue, hp]
      rw [hred]
      refine ⟨?_, h2, h3, ?_, h5, ?_⟩
      · intro h
        exact Bool.noConfusion (hp.symm.trans h)
      · show s.arrivals ++ [c] =
          s.admitted.map Prod.fst ++ blockedIds s.blocked ++ (s.queue ++ [c])
        rw [h4]
        simp [List.append_assoc]
      · intro p hpm
        exact le_trans (h6 p hpm) ht
    · have hp' : s.processing = false := by simpa using hp
      obtain ⟨hq, hb, hf⟩ := h1 hp'
      have hred : rateLimitEnqueue { s with now := t } c =
          dispatchCall
            { s with
              now := t
              processing := true
              queue := []
              arrivals := s.arrivals ++ [c] } c := by
        simp [rateLimitEnqueue, hp', processNextRequest, hq]
      rw [hred]
      by_cases hm : s.maxPerSec ≤ s.count
      · have hred2 : dispatchCall
            { s with
              now := t
              processing := true
              queue := []
              arrivals := s.arrivals ++ [c] } c =
            { s with
              now := t
              processing := true
              queue := []
              arrivals := s.arrivals ++ [c]
              blocked := some (c, t + 1000) } := by
          simp [dispatchCall, hm]
        rw [hred2]
        refine ⟨fun h => Bool.noConfusion h, h2, fun _ => hf, ?_, h5, ?_⟩
        · show s.arrivals ++ [c] =
            s.admitted.map Prod.fst ++ blockedIds (some (c, t + 1000)) ++ []
          rw [h4, hq, hb]
          simp [blockedIds]
        · intro p hpm
          exact le_trans (h6 p hpm) ht
      · have hred2 : dispatchCall
            { s with
              now := t
              processing := true
              queue := []
              arrivals := s.arrivals ++ [c] } c =
            { s with
              now := t
              processing := true
              queue := []
              arrivals := s.arrivals ++ [c]
              count := s.count + 1
              timer := some (s.timer.getD (t + 1000))
              inFlight := s.inFlight ++ [c]
              admitted := s.admitted ++ [(c, t)] } := by
          simp [dispatchCall, hm, admitCall]
        rw [hred2]
        refine ⟨fun h => Bool.noConfusion h, ?_, ?_, ?_, ?_, ?_⟩
        · rw [hf]
          exact le_refl 1
        · intro hcon
          exact absurd hb hcon
        · show s.arrivals ++ [c] =
            (s.admitted ++ [(c, t)]).map Prod.fst ++ blockedIds s.blocked ++ []
          rw [h4, hq, hb]
          simp [blockedIds]
        · exact admitted_snoc_pairwise h5 h6 ht
        · exact admitted_snoc_le h6 ht
  | timerFire hd ht =>
    refine ⟨?_, h2, h3, h4, h5, ?_⟩
    · intro h
      exact h1 h
    · intro p hpm
      exact le_trans (h6 p hpm) ht
  | wake hb ht =>
    rename_i c t
    have hf : s.inFlight = [] := h3 (by simp [hb])
    have hp : s.processing = true := by
      by_contra hcon
      have hfalse : s.processing = false := by simpa using hcon
      have hnone := (h1 hfalse).2.1
      rw [hnone] at hb
      cases hb
    have hred : admitCall { s with now := t, count := 0, blocked := none } c =
        { s with
          now := t
          count := 1
          blocked := none
          timer := some (s.timer.getD (t + 1000))
          inFlight := s.inFlight ++ [c]
          admitted := s.admitted ++ [(c, t)] } := by
      simp [admitCall]
    rw [hred]
    refine ⟨?_, ?_, ?_, ?_, ?_, ?_⟩
    · intro h
      exact Bool.noConfusion (hp.symm.trans h)
    · rw [hf]
      exact le_refl 1
    · intro hcon
      exact absurd rfl hcon
    · show s.arrivals =
        (s.admitted ++ [(c, t)]).map Prod.fst ++ blockedIds none ++ s.queue
      rw [h4, hb]
      simp [blockedIds]
    · exact admitted_snoc_pairwise h5 h6 ht
    · exact admitted_snoc_le h6 ht
  | settle hc ht =>
    rename_i c ex t
    have hfl : s.inFlight = [c] := mem_length_le_one hc h2
    have hb : s.blocked = none := by
      by_contra hcon
      rw [h3 hcon] at hc
      cases hc
    have herase : s.inFlight.erase c = [] := by
      rw [hfl]
      simp
    cases hq : s.queue with
    | nil =>
      have hred : processNextRequest
          { s with
            now := t
            queue := []
            inFlight := s.inFlight.erase c
            outcomes := s.outcomes ++ [(c, makeRequest s.timeoutMs ex)] } =
          { s with
            now := t
            queue := []
            inFlight := s.inFlight.erase c
            outcomes := s.outcomes ++ [(c, makeRequest s.timeoutMs ex)]
            processing := false } := by
        simp [processNextRequest]
      rw [hred]
      refine ⟨fun _ => ⟨rfl, hb, herase⟩, ?_, fun _ => herase, ?_, h5, ?_⟩
      · rw [herase]
        exact Nat.zero_le 1
      · show s.arrivals = s.admitted.map Prod.fst ++ blockedIds s.blocked ++ []
        rw [h4, hq, hb]
      · intro p hpm
        exact le_trans (h6 p hpm) ht
    | cons c2 rest =>
      have hred : processNextRequest
          { s with
            now := t
            queue := c2 :: rest
            inFlight := s.inFlight.erase c
            outcomes := s.outcomes ++ [(c, makeRequest s.timeoutMs ex)] } =
          dispatchCall
            { s with
              now := t
              inFlight := s.inFlight.erase c
              outcomes := s.outcomes ++ [(c, makeRequest s.timeoutMs ex)]
              processing := true
              queue := rest } c2 := by
        simp [processNextRequest]
      rw [hred]
      by_cases hm : s.maxPerSec ≤ s.count
      · have hred2 : dispatchCall
            { s with
              now := t
              inFlight := s.inFlight.erase c
              outcomes := s.outcomes ++ [(c, makeRequest s.timeoutMs ex)]
              processing := true
              queue := rest } c2 =
            { s with
              now := t
              inFlight := s.inFlight.erase c
              outcomes := s.outcomes ++ [(c, makeRequest s.timeoutMs ex)]
              processing := true
              queue := rest
              blocked := some (c2, t + 1000) } := by
          simp [dispatchCall, hm]
        rw [hred2]
        refine ⟨fun h => Bool.noConfusion h, ?_, fun _ => herase, ?_, h5, ?_⟩
        · rw [herase]
          exact Nat.zero_le 1
        · show s.arrivals = s.admitted.map Prod.fst ++
            blockedIds (some (c2, t + 1000)) ++ rest
          rw [h4, hq, hb]
          simp [blockedIds]
        · intro p hpm
          exact le_trans (h6 p hpm) ht
      · have hred2 : dispatchCall
            { s with
              now := t
              inFlight := s.inFlight.erase c
              outcomes := s.outcomes ++ [(c, makeRequest s.timeoutMs ex)]
              processing := true
              queue := rest } c2 =
            { s with
              now := t
              outcomes := s.outcomes ++ [(c, makeRequest s.timeoutMs ex)]
              processing := true
              queue := rest
              count := s.count + 1
              timer := some (s.timer.getD (t + 1000))
              inFlight := s.inFlight.erase c ++ [c2]
              admitted := s.admitted ++ [(c2, t)] } := by
          simp [dispatchCall, hm, admitCall]
        rw [hred2]
        refine ⟨fun h => Bool.noConfusion h, ?_, ?_, ?_, ?_, ?_⟩
        · rw [herase]
          exact le_refl 1
        · intro hcon
          exact absurd hb hcon
        · show s.arrivals = (s.admitted ++ [(c2, t)]).map Prod.fst ++
            blockedIds s.blocked ++ rest
          rw [h4, hq, hb]
          simp [blockedIds]
        · exact admitted_snoc_pairwise h5 h6 ht
        · exact admitted_snoc_le h6 ht
  | reconfig ht =>
    refine ⟨h1, h2, h3, h4, h5, ?_⟩
    intro p hpm
    exact le_trans (h6 p hpm) ht

theorem rlInv_trace {s0 s : RLState} {ls : List Label}
    (inv : rlInv s0) (tr : Trace s0 ls s) : rlInv s := by
  induction tr with
  | nil => exact inv
  | cons st _ ih => exact ih (rlInv_step inv st)

/-!
## Response-classification lemmas and claims C1, C4, C5
-/

theorem isAPIResponse_eq_fields (d : Json) :
    isAPIResponse d =
      (d.hasField "status" && d.hasField "message" && d.hasField "result") := by
  cases d <;>
    simp [isAPIResponse, truthy, isObjectTypeof, Json.hasField, Json.getField]

theorem classify_api_characterization (data code : Json) (msg : String) :
    classifyBody data = Except.error (EtherscanError.api code msg) ↔
      (isAPIResponse data = true ∧
       data.getField "status" = some (Json.str "0") ∧
       data.getField "message" = some (Json.str msg) ∧
       strStartsWith msg "NOTOK" = true ∧
       code = (data.getField "result").getD Json.null) := by
  constructor
  · intro h
    unfold classifyBody at h
    by_cases hap : isAPIResponse data
    · simp only [hap, if_true] at h
      split at h
      · rename_i st msgVal hs hm
        by_cases hst : st == "0"
        · simp only [hst, if_true] at h
          cases msgVal with
          | str m =>
            by_cases hpre : strStartsWith m "NOTOK"
            · simp only [hpre, if_true] at h
              have hinj := Except.error.inj h
              have hcode := (EtherscanError.api.injEq _ _ _ _).mp hinj
              refine ⟨hap, ?_, ?_, ?_, ?_⟩
              · rw [hs]
                have : st = "0" := by simpa using hst
                rw [this]
              · rw [hm, hcode.2]
              · rw [← hcode.2]
                exact hpre
              · exact hcode.1.symm
            · simp only [hpre, if_false] at h
              cases h
          | null => cases h
          | bool b => cases h
          | num n => cases h
          | arr es => cases h
          | obj fs => cases h
        · simp only [hst, if_false] at h
          cases h
      · cases h
    · simp only [hap, if_false] at h
      cases h
  · rintro ⟨hap, hs, hm, hpre, hcode⟩
    unfold classifyBody
    simp only [hap, if_true, hs, hm]
    simp [hpre, hcode]

/-- C1: with a 2xx response and a JSON-parseable body, the call fails with
an `EtherscanAPIError` (RemoteAPI kind) exactly when the body is an object
carrying `status`, `message` and `result`, with `status === "0"` and the
message a string starting with `"NOTOK"`; the error then carries the `result` field of the body as its code and the `message` field of
the body as its message.
Bodies failing any of the conditions are never classified RemoteAPI. -/
theorem remoteapi_classification_iff
    (timeout st : Nat) (text : String) (data : Json)
    (h2xx : responseOk st = true) :
    ((∃ code msg,
        makeRequest timeout (FetchResult.response st text (BodyOutcome.parsed data)) =
          Except.error (EtherscanError.api code msg)) ↔
      (data.hasField "status" = true ∧ data.hasField "message" = true ∧
       data.hasField "result" = true ∧
       data.getField "status" = some (Json.str "0") ∧
       ∃ m, data.getField "message" = some (Json.str m) ∧
         strStartsWith m "NOTOK" = true))
    ∧ (∀ m r, data.getField "message" = some (Json.str m) →
        strStartsWith m "NOTOK" = true →
        data.getField "status" = some (Json.str "0") →
        data.getField "result" = some r →
        makeRequest timeout (FetchResult.response st text (BodyOutcome.parsed data)) =
          Except.error (EtherscanError.api r m)) := by
  have hmk : makeRequest timeout (FetchResult.response st text (BodyOutcome.parsed data)) =
      classifyBody data := by
    simp [makeRequest, h2xx]
  constructor
  · constructor
    · rintro ⟨code, msg, h⟩
      rw [hmk] at h
      obtain ⟨hap, hs, hm, hpre, _⟩ := (classify_api_characterization data code msg).mp h
      have hfields := isAPIResponse_eq_fields data ▸ hap
      have h3 : data.hasField "status" = true ∧ data.hasField "message" = true ∧
          data.hasField "result" = true := by
        constructor
        · exact (Bool.and_eq_true _ _).mp ((Bool.and_eq_true _ _).mp hfields).1 |>.1
        constructor
        · exact (Bool.and_eq_true _ _).mp ((Bool.and_eq_true _ _).mp hfields).1 |>.2
        · exact ((Bool.and_eq_true _ _).mp hfields).2
      exact ⟨h3.1, h3.2.1, h3.2.2, hs, msg, hm, hpre⟩
    · rintro ⟨hfs, hfm, hfr, hs, m, hm, hpre⟩
      refine ⟨(data.getField "result").getD Json.null, m, ?_⟩
      rw [hmk]
      refine (classify_api_characterization data _ m).mpr ⟨?_, hs, hm, hpre, rfl⟩
      rw [isAPIResponse_eq_fields]
      rw [hfs, hfm, hfr]
      rfl
  · intro m r hm hpre hs hr
    rw [hmk]
    have h := (classify_api_characterization data r m).mpr ?_
    · exact h
    · refine ⟨?_, hs, hm, hpre, by rw [hr]; rfl⟩
      rw [isAPIResponse_eq_fields]
      have hfs : data.hasField "status" = true := by
        unfold Json.hasField
        rw [hs]
        rfl
      have hfm : data.hasField "message" = true := by
        unfold Json.hasField
        rw [hm]
        rfl
      have hfr : data.hasField "result" = true := by
        unfold Json.hasField
        rw [hr]
        rfl
      rw [hfs, hfm, hfr]
      rfl

/-- The spec example body: status `"0"`, message `"NOTOK: bad request"`,
result `"ERR1"`. -/
def notokEnvelope : Json :=
  Json.obj [("status", Json.str "0"), ("message", Json.str "NOTOK: bad request"),
    ("result", Json.str "ERR1")]

theorem remoteapi_classification_iff_witness :
    makeRequest 30000 (FetchResult.response 200 "OK" (BodyOutcome.parsed notokEnvelope)) =
      Except.error (EtherscanError.api (Json.str "ERR1") "NOTOK: bad request") :=
  (remoteapi_classification_iff 30000 200 "OK" notokEnvelope rfl).2
    "NOTOK: bad request" (Json.str "ERR1") rfl (by decide) rfl rfl

/-- The spec example success body: status `"1"`, message `"OK"`,
result `"123"`. -/
def okEnvelope : Json :=
  Json.obj [("status", Json.str "1"), ("message", Json.str "OK"),
    ("result", Json.str "123")]

/-- C4 counterexample: on a 2xx response with body
`{status:"1", message:"OK", result:"123"}`, `HttpClient.get` does NOT
succeed with the raw value `"123"` — it returns the whole envelope. -/
theorem get_returns_envelope_not_result :
    httpClientGet "https://api.etherscan.io/v2/api?chainid=1" "" [] 30000
      (fun _ => FetchResult.response 200 "OK" (BodyOutcome.parsed okEnvelope)) ≠
      Except.ok (Json.str "123") := by
  intro h
  have heq : httpClientGet "https://api.etherscan.io/v2/api?chainid=1" "" [] 30000
      (fun _ => FetchResult.response 200 "OK" (BodyOutcome.parsed okEnvelope)) =
      Except.ok okEnvelope := rfl
  have h2 : Except.ok (ε := EtherscanError) okEnvelope = Except.ok (Json.str "123") :=
    heq.symm.trans h
  injection h2 with h3
  exact Json.noConfusion h3

/-- C4 amended: the dispatcher (`HttpClient.get`) succeeds with the full
envelope object; the façade method (`AccountsModule.getBalance`) then
unwraps `response.result`, so the SDK-level call yields `"123"`. -/
theorem success_passthrough_amended :
    httpClientGet "https://api.etherscan.io/v2/api?chainid=1" "" [] 30000
      (fun _ => FetchResult.response 200 "OK" (BodyOutcome.parsed okEnvelope)) =
      Except.ok okEnvelope ∧
    getBalance "key" "0xaaaaaaaaaaaaaaaaaaaaaaaaaaaaaaaaaaaaaaaa" none
      "https://api.etherscan.io/v2/api?chainid=1" 30000
      (fun _ => FetchResult.response 200 "OK" (BodyOutcome.parsed okEnvelope)) =
      Except.ok (some (Json.str "123")) := by
  constructor
  · rfl
  · rfl

/-- C5: every failure of the HTTP exchange itself is surfaced as an
`EtherscanNetworkError` (Transport kind), never as success or RemoteAPI:
non-2xx status (with the status code and status text in the message,
regardless of body), JSON-parse failure (wrapping the parse message),
timeout abort (message includes the timeout in ms), and any other
exception (wrapping the underlying message). -/
theorem transport_error_classification
    (timeout st : Nat) (text m : String) (body : BodyOutcome) :
    (responseOk st = false →
      makeRequest timeout (FetchResult.response st text body) =
        Except.error (EtherscanError.network
          ("Request failed with status " ++ toString st ++ ": " ++ text))) ∧
    (responseOk st = true →
      makeRequest timeout (FetchResult.response st text (BodyOutcome.parseError m)) =
        Except.error (EtherscanError.network ("Request failed: " ++ m))) ∧
    (makeRequest timeout FetchResult.abortError =
      Except.error (EtherscanError.network
        ("Request timed out after " ++ toString timeout ++ "ms"))) ∧
    (makeRequest timeout (FetchResult.otherError m) =
      Except.error (EtherscanError.network ("Request failed: " ++ m))) := by
  refine ⟨?_, ?_, rfl, rfl⟩
  · intro h
    simp [makeRequest, h]
  · intro h
    simp [makeRequest, h]

theorem transport_error_classification_witness :
    makeRequest 5000 (FetchResult.response 500 "Internal Server Error"
        (BodyOutcome.parsed Json.null)) =
      Except.error (EtherscanError.network
        "Request failed with status 500: Internal Server Error") ∧
    makeRequest 5000 (FetchResult.response 200 "OK"
        (BodyOutcome.parseError "Unexpected token")) =
      Except.error (EtherscanError.network "Request failed: Unexpected token") ∧
    makeRequest 5000 FetchResult.abortError =
      Except.error (EtherscanError.network "Request timed out after 5000ms") := by
  have h1 := transport_error_classification 5000 500 "Internal Server Error"
    "Unexpected token" (BodyOutcome.parsed Json.null)
  have h2 := transport_error_classification 5000 200 "OK"
    "Unexpected token" (BodyOutcome.parsed Json.null)
  exact ⟨h1.1 rfl, h2.2.1 rfl, h2.2.2.1⟩

/-- C6: the query string built by `HttpClient.get` is the `&`-join of the
segments `encodeURIComponent(key)=encodeURIComponent(String(value))` for
exactly the entries whose value is not `undefined`; `undefined` entries
are omitted entirely, while the other falsy values are kept and
stringified.  In particular `{address: "0xabc", tag: undefined}` produces
exactly `address=0xabc` with no `tag` parameter. -/
theorem query_encoding (params : List (String × ParamValue)) :
    buildQuery params = String.intercalate "&" (queryPairs params) ∧
    (∀ sgmt, sgmt ∈ queryPairs params ↔
      ∃ k v, (k, v) ∈ params ∧ v ≠ ParamValue.undef ∧
        sgmt = encodeURIComponent k ++ "=" ++ encodeURIComponent (stringOfParam v)) ∧
    queryPairs [("address", ParamValue.str "0xabc"), ("tag", ParamValue.undef)] =
      ["address=0xabc"] ∧
    buildQuery [("address", ParamValue.str "0xabc"), ("tag", ParamValue.undef)] =
      "address=0xabc" ∧
    queryPairs [("value", ParamValue.null), ("empty", ParamValue.str ""),
        ("zero", ParamValue.num 0), ("flag", ParamValue.bool false)] =
      ["value=null", "empty=", "zero=0", "flag=false"] := by
  refine ⟨rfl, ?_, ?_, ?_, ?_⟩
  · intro sgmt
    constructor
    · intro hmem
      rcases List.mem_map.mp hmem with ⟨p, hp, rfl⟩
      rcases List.mem_filter.mp hp with ⟨hmem2, hcond⟩
      refine ⟨p.1, p.2, hmem2, ?_, rfl⟩
      intro hcon
      rw [hcon] at hcond
      simp at hcond
    · rintro ⟨k, v, hmem2, hne, rfl⟩
      refine List.mem_map.mpr ⟨(k, v), ?_, rfl⟩
      refine List.mem_filter.mpr ⟨hmem2, ?_⟩
      simp [hne]
  · rfl
  · rfl
  · rfl

/-!
## Step anatomy of the rate limiter
-/

theorem dispatchCall_anatomy (s : RLState) (c : Nat) :
    (dispatchCall s c = { s with blocked := some (c, s.now + 1000) } ∧
      s.maxPerSec ≤ s.count) ∨
    (dispatchCall s c = admitCall s c ∧ s.count < s.maxPerSec) := by
  unfold dispatchCall
  by_cases hm : s.maxPerSec ≤ s.count
  · left
    exact ⟨by simp [hm], hm⟩
  · right
    refine ⟨by simp [hm], ?_⟩
    omega

theorem processNextRequest_anatomy (s : RLState) :
    (processNextRequest s = { s with processing := false } ∧ s.queue = []) ∨
    (∃ c rest, s.queue = c :: rest ∧
      processNextRequest s =
        dispatchCall { s with processing := true, queue := rest } c) := by
  unfold processNextRequest
  cases hq : s.queue with
  | nil =>
    left
    exact ⟨rfl, rfl⟩
  | cons c rest =>
    right
    exact ⟨c, rest, rfl, rfl⟩

/-- Whether a label is a `setRateLimit` reconfiguration. -/
def isReconfigLabel : Label → Bool
  | Label.reconfig _ _ _ => true
  | _ => false

/-- Every step of the limiter is one of: a non-admitting step that leaves
the counter alone; a counter reset (the window timer); a reconfiguration;
a direct admission, possible only with the counter strictly below the
ceiling, incrementing it; or a wake-up admission, which zeroes the counter
before admitting (leaving it at 1). -/
theorem step_cases {s s1 : RLState} {l : Label} (st : Step s l s1) :
    (s1.admitted = s.admitted ∧ s1.count = s.count ∧ s1.maxPerSec = s.maxPerSec) ∨
    (s1.admitted = s.admitted ∧ s1.count = 0 ∧ s1.maxPerSec = s.maxPerSec) ∨
    ((∃ e m t, l = Label.reconfig e m t) ∧ s1.admitted = s.admitted ∧
      s1.count = s.count) ∨
    ((∃ c, s1.admitted = s.admitted ++ [(c, s1.now)]) ∧ s1.count = s.count + 1 ∧
      s.count < s.maxPerSec ∧ s1.maxPerSec = s.maxPerSec) ∨
    ((∃ t, l = Label.wake t) ∧ (∃ c, s1.admitted = s.admitted ++ [(c, s1.now)]) ∧
      s1.count = 1 ∧ s1.maxPerSec = s.maxPerSec) := by
  cases st with
  | arrive hen ht =>
    rename_i c t
    by_cases hp : s.processing = true
    · have hred : rateLimitEnqueue { s with now := t } c =
          { s with
            now := t
            queue := s.queue ++ [c]
            arrivals := s.arrivals ++ [c] } := by
        simp [rateLimitEnqueue, hp]
      rw [hred]
      left
      exact ⟨rfl, rfl, rfl⟩
    · have hp' : s.processing = false := by simpa using hp
      have hred : rateLimitEnqueue { s with now := t } c =
          processNextRequest
            { s with
              now := t
              queue := s.queue ++ [c]
              arrivals := s.arrivals ++ [c] } := by
        simp [rateLimitEnqueue, hp']
      rw [hred]
      rcases processNextRequest_anatomy
          { s with
            now := t
            queue := s.queue ++ [c]
            arrivals := s.arrivals ++ [c] } with ⟨heq, _⟩ | ⟨c0, rest, _, heq⟩
      · rw [heq]
        left
        exact ⟨rfl, rfl, rfl⟩
      · rw [heq]
        rcases dispatchCall_anatomy
            { s with
              now := t
              queue := rest
              arrivals := s.arrivals ++ [c]
              processing := true } c0 with
          ⟨heq2, _⟩ | ⟨heq2, hlt⟩
        · rw [heq2]
          left
          exact ⟨rfl, rfl, rfl⟩
        · rw [heq2]
          right; right; right; left
          exact ⟨⟨c0, rfl⟩, rfl, hlt, rfl⟩
  | timerFire hd ht =>
    right; left
    exact ⟨rfl, rfl, rfl⟩
  | wake hb ht =>
    rename_i c t
    right; right; right; right
    exact ⟨⟨t, rfl⟩, ⟨c, rfl⟩, rfl, rfl⟩
  | settle hc ht =>
    rename_i c ex t
    rcases processNextRequest_anatomy
        { s with
          now := t
          inFlight := s.inFlight.erase c
          outcomes := s.outcomes ++ [(c, makeRequest s.timeoutMs ex)] } with
      ⟨heq, _⟩ | ⟨c0, rest, _, heq⟩
    · rw [heq]
      left
      exact ⟨rfl, rfl, rfl⟩
    · rw [heq]
      rcases dispatchCall_anatomy
          { s with
            now := t
            inFlight := s.inFlight.erase c
            outcomes := s.outcomes ++ [(c, makeRequest s.timeoutMs ex)]
            processing := true
            queue := rest } c0 with
        ⟨heq2, _⟩ | ⟨heq2, hlt⟩
      · rw [heq2]
        left
        exact ⟨rfl, rfl, rfl⟩
      · rw [heq2]
        right; right; right; left
        exact ⟨⟨c0, rfl⟩, rfl, hlt, rfl⟩
  | reconfig ht =>
    rename_i e m t
    right; right; left
    exact ⟨⟨e, m, t, rfl⟩, rfl, rfl⟩

theorem count_le_max_step {s s1 : RLState} {l : Label}
    (h : s.count ≤ s.maxPerSec) (hm : 1 ≤ s.maxPerSec)
    (hl : isReconfigLabel l = false) (st : Step s l s1) :
    s1.count ≤ s1.maxPerSec ∧ s1.maxPerSec = s.maxPerSec := by
  rcases step_cases st with
    ⟨_, hc, hx⟩ | ⟨_, hc, hx⟩ | ⟨⟨e, m, t, hlab⟩, _, _⟩ |
    ⟨_, hc, hlt, hx⟩ | ⟨_, _, hc, hx⟩
  · rw [hc, hx]
    exact ⟨h, rfl⟩
  · rw [hc, hx]
    exact ⟨Nat.zero_le _, rfl⟩
  · rw [hlab] at hl
    exact absurd hl (by simp [isReconfigLabel])
  · rw [hc, hx]
    exact ⟨by omega, rfl⟩
  · rw [hc, hx]
    exact ⟨hm, rfl⟩

theorem count_le_max_trace {s0 s : RLState} {ls : List Label}
    (h0 : s0.count ≤ s0.maxPerSec) (hm : 1 ≤ s0.maxPerSec)
    (tr : Trace s0 ls s) (hnr : ∀ l ∈ ls, isReconfigLabel l = false) :
    s.count ≤ s.maxPerSec ∧ s.maxPerSec = s0.maxPerSec := by
  induction tr with
  | nil => exact ⟨h0, rfl⟩
  | cons st tr' ih =>
    rename_i sa sb sc l ls'
    have hl : isReconfigLabel l = false := hnr l (List.mem_cons_self _ _)
    have hstep := count_le_max_step h0 hm hl st
    have hrest := ih hstep.1 (hstep.2 ▸ hm)
      (fun l2 h2 => hnr l2 (List.mem_cons_of_mem _ h2))
    exact ⟨hrest.1, hrest.2.trans hstep.2⟩

/-- C2: at every admission the counter stays at or below the ceiling;
a head-of-queue call that finds the counter at or above the ceiling causes
no admission in that step (it is deferred) — only a wake-up, which zeroes
the counter first, can admit past it; each step admits at most one call
and the counter tracks admissions within the limiter window (zeroed
exactly at window boundaries); and along any execution with a fixed
ceiling of at least 1 the counter never exceeds the ceiling. -/
theorem rate_limit_ceiling :
    (∀ s l s1, Step s l s1 → 1 ≤ s.maxPerSec →
      s.admitted.length < s1.admitted.length → s1.count ≤ s1.maxPerSec) ∧
    (∀ s l s1, Step s l s1 → s.maxPerSec ≤ s.count →
      s1.admitted = s.admitted ∨ ∃ t, l = Label.wake t) ∧
    (∀ s t s1, Step s (Label.wake t) s1 →
      ∃ c w, s.blocked = some (c, w) ∧ s1.count = 1 ∧
        s1.admitted = s.admitted ++ [(c, t)]) ∧
    (∀ s l s1, Step s l s1 →
      (s1.admitted.length = s.admitted.length ∧
        (s1.count = s.count ∨ s1.count = 0)) ∨
      (s1.admitted.length = s.admitted.length + 1 ∧
        (s1.count = s.count + 1 ∨ s1.count = 1))) ∧
    (∀ m timeout ls s, 1 ≤ m → Trace (initRL true m timeout) ls s →
      (∀ l ∈ ls, isReconfigLabel l = false) → s.count ≤ s.maxPerSec) := by
  refine ⟨?_, ?_, ?_, ?_, ?_⟩
  · intro s l s1 st hm hlt
    rcases step_cases st with ⟨ha, hc, hx⟩ | ⟨ha, hc, hx⟩ | ⟨_, ha, _⟩ |
      ⟨⟨c0, ha⟩, hc, hclt, hx⟩ | ⟨_, ⟨c0, ha⟩, hc, hx⟩
    · rw [ha] at hlt
      exact absurd hlt (lt_irrefl _)
    · rw [ha] at hlt
      exact absurd hlt (lt_irrefl _)
    · rw [ha] at hlt
      exact absurd hlt (lt_irrefl _)
    · rw [hc, hx]
      omega
    · rw [hc, hx]
      omega
  · intro s l s1 st hge
    rcases step_cases st with ⟨ha, _, _⟩ | ⟨ha, _, _⟩ | ⟨_, ha, _⟩ |
      ⟨_, _, hclt, _⟩ | ⟨⟨t, hlab⟩, _, _, _⟩
    · exact Or.inl ha
    · exact Or.inl ha
    · exact Or.inl ha
    · omega
    · exact Or.inr ⟨t, hlab⟩
  · intro s t s1 st
    cases st with
    | wake hb ht => exact ⟨_, _, hb, rfl, rfl⟩
  · intro s l s1 st
    rcases step_cases st with ⟨ha, hc, _⟩ | ⟨ha, hc, _⟩ | ⟨_, ha, hc⟩ |
      ⟨⟨c0, ha⟩, hc, _, _⟩ | ⟨_, ⟨c0, ha⟩, hc, _⟩
    · exact Or.inl ⟨by rw [ha], Or.inl hc⟩
    · exact Or.inl ⟨by rw [ha], Or.inr hc⟩
    · exact Or.inl ⟨by rw [ha], Or.inl hc⟩
    · refine Or.inr ⟨?_, Or.inl hc⟩
      rw [ha]
      simp
    · refine Or.inr ⟨?_, Or.inr hc⟩
      rw [ha]
      simp
  · intro m timeout ls s hm tr hnr
    exact (count_le_max_trace (Nat.zero_le m) hm tr hnr).1

theorem rate_limit_ceiling_witness :
    (initRL true 5 30000).count ≤ (initRL true 5 30000).maxPerSec :=
  rate_limit_ceiling.2.2.2.2 5 30000 [] (initRL true 5 30000)
    (by decide) Trace.nil (fun l h => absurd h (List.not_mem_nil l))

/-- C3: with rate limiting enabled, queued calls are admitted (transport
started) strictly in queue-append order: the sequence of admitted call ids
is always a prefix of the arrival sequence, and the admission times are
monotone, so a call appended before another starts its transport no
later. -/
theorem fifo_order (e : Bool) (m timeout : Nat) (ls : List Label) (s : RLState)
    (tr : Trace (initRL e m timeout) ls s) :
    (∃ rest, s.admitted.map Prod.fst ++ rest = s.arrivals) ∧
    List.Pairwise (fun a b => a ≤ b) (s.admitted.map Prod.snd) := by
  have hinv := rlInv_trace (rlInv_init e m timeout) tr
  obtain ⟨_, _, _, h4, h5, _⟩ := hinv
  refine ⟨⟨blockedIds s.blocked ++ s.queue, ?_⟩, h5⟩
  rw [h4, ← List.append_assoc]

/-- Two calls pushed while the limiter is idle: call 1 is admitted at once,
call 2 sits queued behind it. -/
def fifoDemoState : RLState :=
  rateLimitEnqueue
    { rateLimitEnqueue { initRL true 5 30000 with now := 0 } 1 with now := 0 } 2

theorem fifo_order_witness :
    (∃ rest, fifoDemoState.admitted.map Prod.fst ++ rest = fifoDemoState.arrivals) ∧
    List.Pairwise (fun a b => a ≤ b) (fifoDemoState.admitted.map Prod.snd) :=
  fifo_order true 5 30000 [Label.arrive 1 0, Label.arrive 2 0] fifoDemoState
    (Trace.cons (Step.arrive rfl (Nat.le_refl 0))
      (Trace.cons (Step.arrive rfl (Nat.le_refl 0)) Trace.nil))

/-- C9: with rate limiting enabled, transport executions never overlap —
at most one call is in flight in every reachable state, whatever the
ceiling; and while a call is in flight, the only step that changes the
in-flight set is that call settling (whose `finally` block is what starts
the next queued call). -/
theorem single_transport_in_flight (e : Bool) (m timeout : Nat)
    (ls : List Label) (s : RLState)
    (tr : Trace (initRL e m timeout) ls s) :
    s.inFlight.length ≤ 1 ∧
    (∀ l s1 c, Step s l s1 → s.inFlight = [c] → s1.inFlight ≠ s.inFlight →
      ∃ ex t, l = Label.settle c ex t) := by
  have hinv := rlInv_trace (rlInv_init e m timeout) tr
  obtain ⟨h1, h2, h3, _, _, _⟩ := hinv
  refine ⟨h2, ?_⟩
  intro l s1 c st hfl hne
  cases st with
  | arrive hen ht =>
    rename_i c0 t
    by_cases hp : s.processing = true
    · have hred : rateLimitEnqueue { s with now := t } c0 =
          { s with
            now := t
            queue := s.queue ++ [c0]
            arrivals := s.arrivals ++ [c0] } := by
        simp [rateLimitEnqueue, hp]
      have hsame : (rateLimitEnqueue { s with now := t } c0).inFlight = s.inFlight := by
        rw [hred]
      exact absurd hsame hne
    · have hp' : s.processing = false := by simpa using hp
      have hf := (h1 hp').2.2
      rw [hf] at hfl
      exact List.noConfusion hfl
  | timerFire hd ht =>
    exact absurd rfl hne
  | wake hb ht =>
    have hf : s.inFlight = [] := h3 (by simp [hb])
    rw [hf] at hfl
    exact List.noConfusion hfl
  | settle hc ht =>
    rename_i c1 ex t
    rw [hfl] at hc
    have hceq : c1 = c := by simpa using hc
    subst hceq
    exact ⟨ex, t, rfl⟩
  | reconfig ht =>
    exact absurd rfl hne

theorem single_transport_in_flight_witness :
    (initRL true 5 30000).inFlight.length ≤ 1 :=
  (single_transport_in_flight true 5 30000 [] (initRL true 5 30000) Trace.nil).1

theorem processNextRequest_blocked (s : RLState) :
    (processNextRequest s).blocked = s.blocked ∨
    ∃ c, (processNextRequest s).blocked = some (c, (processNextRequest s).now + 1000) := by
  rcases processNextRequest_anatomy s with ⟨heq, _⟩ | ⟨c0, rest, _, heq⟩
  · rw [heq]
    exact Or.inl rfl
  · rw [heq]
    rcases dispatchCall_anatomy { s with processing := true, queue := rest } c0 with
      ⟨heq2, _⟩ | ⟨heq2, _⟩
    · rw [heq2]
      exact Or.inr ⟨c0, rfl⟩
    · rw [heq2]
      exact Or.inl rfl

theorem step_blocked_anatomy {s s1 : RLState} {l : Label}
    (st : Step s l s1) (hbn : s.blocked = none) :
    s1.blocked = s.blocked ∨ ∃ c, s1.blocked = some (c, s1.now + 1000) := by
  cases st with
  | arrive hen ht =>
    rename_i c t
    by_cases hp : s.processing = true
    · have hred : rateLimitEnqueue { s with now := t } c =
          { s with
            now := t
            queue := s.queue ++ [c]
            arrivals := s.arrivals ++ [c] } := by
        simp [rateLimitEnqueue, hp]
      rw [hred]
      exact Or.inl rfl
    · have hp' : s.processing = false := by simpa using hp
      have hred : rateLimitEnqueue { s with now := t } c =
          processNextRequest
            { s with
              now := t
              queue := s.queue ++ [c]
              arrivals := s.arrivals ++ [c] } := by
        simp [rateLimitEnqueue, hp']
      rw [hred]
      exact processNextRequest_blocked _
  | timerFire hd ht =>
    exact Or.inl rfl
  | wake hb ht =>
    rw [hbn] at hb
    cases hb
  | settle hc ht =>
    exact processNextRequest_blocked _
  | reconfig ht =>
    exact Or.inl rfl

/-- C7 counterexample trace, ceiling 1: call 1 arrives at t=0 and is
admitted (window timer set to fire at t=1000); call 2 arrives at t=100 and
queues; call 1 settles at t=600, and call 2, the head of the queue, finds
the counter at the ceiling. -/
def c7s1 : RLState := rateLimitEnqueue { initRL true 1 30000 with now := 0 } 1

def c7s2 : RLState := rateLimitEnqueue { c7s1 with now := 100 } 2

def c7s3 : RLState :=
  processNextRequest
    { c7s2 with
      now := 600
      inFlight := c7s2.inFlight.erase 1
      outcomes := c7s2.outcomes ++
        [(1, makeRequest c7s2.timeoutMs (FetchResult.otherError "boom"))] }

/-- C7 counterexample: in the reachable state where call 2 blocks at
t=600, the current window ends at t=1000 (the live timer), so the
"remainder of the current 1-second window" is 400ms; but the code
schedules the wake-up at t=1600 — a fixed 1000ms after the check, past
the end of the current window — refuting the claim that the suspension
lasts the remainder of the window. -/
theorem fixed_delay_cex :
    Trace (initRL true 1 30000)
      [Label.arrive 1 0, Label.arrive 2 100,
       Label.settle 1 (FetchResult.otherError "boom") 600] c7s3 ∧
    c7s3.blocked = some (2, 1600) ∧
    c7s3.timer = some 1000 ∧
    c7s3.now = 600 ∧
    ¬(1600 - 600 ≤ 1000 - 600) := by
  refine ⟨?_, rfl, rfl, rfl, by decide⟩
  exact Trace.cons (Step.arrive rfl (Nat.le_refl 0))
    (Trace.cons (Step.arrive rfl (by decide))
      (Trace.cons (Step.settle (by decide) (by decide)) Trace.nil))

/-- C7 amended: a head-of-queue call that finds the counter at or above
the ceiling suspends for a fixed 1000ms from the moment of the check (the
wake deadline is always `now + 1000`, regardless of how much of the
current window has elapsed, and may extend past the window end), and on
waking resets the counter to 0 before proceeding to admission (leaving it
at 1). -/
theorem fixed_delay_then_reset :
    (∀ s l s1 c w, Step s l s1 → s.blocked = none → s1.blocked = some (c, w) →
      w = s1.now + 1000) ∧
    (∀ s t s1, Step s (Label.wake t) s1 →
      ∃ c, s.blocked = some (c, t) ∧ s1.count = 1 ∧
        s1.admitted = s.admitted ++ [(c, t)]) := by
  constructor
  · intro s l s1 c w st hbn hbs
    rcases step_blocked_anatomy st hbn with heq | ⟨c0, heq⟩
    · rw [hbn] at heq
      rw [heq] at hbs
      cases hbs
    · rw [heq] at hbs
      have := (Option.some.inj hbs).symm
      exact congrArg Prod.snd this
  · intro s t s1 st
    cases st with
    | wake hb ht => exact ⟨_, hb, rfl, rfl⟩

/-- The state after call 2 wakes at t=1600 in the C7 demo trace. -/
def c7s4 : RLState := admitCall { c7s3 with now := 1600, count := 0, blocked := none } 2

theorem fixed_delay_then_reset_witness :
    (1600 : Nat) = c7s3.now + 1000 ∧
    ∃ c, c7s3.blocked = some (c, 1600) ∧ c7s4.count = 1 ∧
      c7s4.admitted = c7s3.admitted ++ [(c, 1600)] :=
  ⟨fixed_delay_then_reset.1 c7s2
      (Label.settle 1 (FetchResult.otherError "boom") 600) c7s3 2 1600
      (Step.settle (by decide) (by decide)) rfl rfl,
   fixed_delay_then_reset.2 c7s3 1600 c7s4 (Step.wake rfl (by decide))⟩

theorem processNextRequest_outcomes (s : RLState) :
    (processNextRequest s).outcomes = s.outcomes := by
  rcases processNextRequest_anatomy s with ⟨heq, _⟩ | ⟨c0, rest, _, heq⟩
  · rw [heq]
  · rw [heq]
    rcases dispatchCall_anatomy { s with processing := true, queue := rest } c0 with
      ⟨heq2, _⟩ | ⟨heq2, _⟩
    · rw [heq2]
    · rw [heq2]
      rfl

/-- C8: `setRateLimit` only rewrites the two configuration fields — the
queue, counter, timer, suspended call, in-flight call, admission history
and recorded outcomes are untouched, and subsequent admission decisions
read the new configuration; moreover a call already in flight at the
moment of reconfiguration settles with exactly the outcome determined by
the client timeout and its transport result, values the reconfiguration
does not touch — so its outcome is unchanged by the reconfiguration. -/
theorem reconfig_isolation :
    (∀ s e m t s1, Step s (Label.reconfig e m t) s1 →
      s1.queue = s.queue ∧ s1.processing = s.processing ∧ s1.count = s.count ∧
      s1.timer = s.timer ∧ s1.blocked = s.blocked ∧ s1.inFlight = s.inFlight ∧
      s1.admitted = s.admitted ∧ s1.outcomes = s.outcomes ∧
      s1.timeoutMs = s.timeoutMs ∧ s1.baseUrl = s.baseUrl ∧
      s1.rateLimitEnabled = e ∧ s1.maxPerSec = m) ∧
    (∀ s e m t s1 c ex t2 s2, Step s (Label.reconfig e m t) s1 →
      Step s1 (Label.settle c ex t2) s2 →
      s2.outcomes = s.outcomes ++ [(c, makeRequest s.timeoutMs ex)]) := by
  constructor
  · intro s e m t s1 st
    cases st with
    | reconfig ht =>
      exact ⟨rfl, rfl, rfl, rfl, rfl, rfl, rfl, rfl, rfl, rfl, rfl, rfl⟩
  · intro s e m t s1 c ex t2 s2 st1 st2
    cases st1 with
    | reconfig ht =>
      cases st2 with
      | settle hc ht2 =>
        rw [processNextRequest_outcomes]

/-- C8 demo: call 1 admitted at t=0, then `setRateLimit(true, 1)`, then
call 1 settles; its recorded outcome is the one computed from the original
timeout and the transport result. -/
def c8s0 : RLState := rateLimitEnqueue { initRL true 5 30000 with now := 0 } 1

def c8s1 : RLState := { c8s0 with now := 0, rateLimitEnabled := true, maxPerSec := 1 }

def c8s2 : RLState :=
  processNextRequest
    { c8s1 with
      now := 0
      inFlight := c8s1.inFlight.erase 1
      outcomes := c8s1.outcomes ++
        [(1, makeRequest c8s1.timeoutMs (FetchResult.otherError "down"))] }

theorem reconfig_isolation_witness :
    c8s2.outcomes = c8s0.outcomes ++
      [(1, makeRequest c8s0.timeoutMs (FetchResult.otherError "down"))] :=
  reconfig_isolation.2 c8s0 true 1 0 c8s1 1 (FetchResult.otherError "down") 0 c8s2
    (Step.reconfig (Nat.le_refl 0)) (Step.settle (by decide) (by decide))

theorem query_encoding_witness :
    buildQuery [("address", ParamValue.str "0xabc"), ("tag", ParamValue.undef)] =
      "address=0xabc" :=
  (query_encoding [("address", ParamValue.str "0xabc"), ("tag", ParamValue.undef)]).2.2.2.1

theorem getD_append_len {α : Type} (l : List α) (a d : α) :
    (l ++ [a]).getD l.length d = a := by
  induction l with
  | nil => rfl
  | cons x xs ih => exact ih

theorem getD_append_left {α : Type} (l l2 : List α) (n : Nat) (d : α)
    (h : n < l.length) : (l ++ l2).getD n d = l.getD n d := by
  induction l generalizing n with
  | nil => exact absurd h (Nat.not_lt_zero n)
  | cons x xs ih =>
    cases n with
    | zero => rfl
    | succ k => simpa using ih k (by simpa using h)

/-- C10 demo: an SDK constructed with `rateLimitEnabled: false`. -/
def c10opts : SDKOptions :=
  { apiKey := "k", network := none, version := none, timeout := none,
    rateLimitEnabled := some false, maxRequestsPerSecond := none }

def c10sdk0 : SDKState :=
  { apiKey := "k", network := "mainnet", version := "v2",
    clients := [setRateLimit (newHttpClient (resolveAPIURL "v2" "mainnet") none) false 5],
    httpClientIdx := 0, moduleClientIdx := 0 }

/-- The same SDK after `setTimeout(10000)`. -/
def c10sdk1 : SDKState :=
  { c10sdk0 with
    clients := c10sdk0.clients ++
      [newHttpClient (resolveAPIURL c10sdk0.version c10sdk0.network)
        (some ((10000 : Int)).toNat)]
    httpClientIdx := c10sdk0.clients.length }

/-- C10 counterexample: construct the SDK with `rateLimitEnabled: false`,
then call `setTimeout(10000)`.  The client the module façade dispatches
through (the reference every module captured at construction) is still the
original one: its `rateLimitEnabled` is still `false` and its timeout is
still the original 30000ms — so the rate-limit configuration applied
earlier very much still governs calls made through the SDK surface after
`setTimeout`, refuting the final clause of the claim. -/
theorem settimeout_module_client_cex :
    constructSDK c10opts = Except.ok c10sdk0 ∧
    setTimeoutSDK c10sdk0 10000 = Except.ok c10sdk1 ∧
    (moduleClient c10sdk1).rateLimitEnabled = false ∧
    (moduleClient c10sdk1).timeoutMs = 30000 ∧
    moduleClient c10sdk1 = moduleClient c10sdk0 :=
  ⟨rfl, rfl, rfl, rfl, rfl⟩

/-- C10 amended: `EtherscanSDK.setTimeout(t)` with a positive integer `t`
replaces the SDK `httpClient` FIELD with a freshly constructed client
whose rate-limit configuration is the defaults (`rateLimitEnabled = true`,
`maxRequestsPerSecond = 5`) and whose queue and window counter are fresh
(the old client state is abandoned by the field); but the module
instances keep the client captured at construction, so calls made through
the module façade after `setTimeout` continue to be governed by the
earlier configuration, including any rate-limit settings applied via
constructor options or `setRateLimit`. -/
theorem settimeout_fresh_defaults_amended
    (sdk : SDKState) (t : Int) (sdk1 : SDKState)
    (h : setTimeoutSDK sdk t = Except.ok sdk1)
    (hidx : sdk.moduleClientIdx < sdk.clients.length) :
    0 < t ∧
    fieldClient sdk1 =
      newHttpClient (resolveAPIURL sdk.version sdk.network) (some t.toNat) ∧
    (fieldClient sdk1).rateLimitEnabled = true ∧
    (fieldClient sdk1).maxPerSec = 5 ∧
    (fieldClient sdk1).queue = [] ∧
    (fieldClient sdk1).count = 0 ∧
    (fieldClient sdk1).processing = false ∧
    moduleClient sdk1 = moduleClient sdk := by
  unfold setTimeoutSDK at h
  by_cases ht : t ≤ 0
  · rw [if_pos ht] at h
    cases h
  · rw [if_neg ht] at h
    have hsdk1 : sdk1 =
        { sdk with
          clients := sdk.clients ++
            [newHttpClient (resolveAPIURL sdk.version sdk.network) (some t.toNat)]
          httpClientIdx := sdk.clients.length } := (Except.ok.inj h).symm
    subst hsdk1
    have hfield : fieldClient
        { sdk with
          clients := sdk.clients ++
            [newHttpClient (resolveAPIURL sdk.version sdk.network) (some t.toNat)]
          httpClientIdx := sdk.clients.length } =
        newHttpClient (resolveAPIURL sdk.version sdk.network) (some t.toNat) := by
      unfold fieldClient
      exact getD_append_len _ _ _
    refine ⟨by omega, hfield, ?_, ?_, ?_, ?_, ?_, ?_⟩
    · rw [hfield]
      rfl
    · rw [hfield]
      rfl
    · rw [hfield]
      rfl
    · rw [hfield]
      rfl
    · rw [hfield]
      rfl
    · unfold moduleClient
      exact getD_append_left _ _ _ _ hidx

theorem settimeout_fresh_defaults_amended_witness :
    (0 : Int) < 10000 ∧
    fieldClient c10sdk1 =
      newHttpClient (resolveAPIURL c10sdk0.version c10sdk0.network)
        (some ((10000 : Int)).toNat) ∧
    (fieldClient c10sdk1).rateLimitEnabled = true ∧
    (fieldClient c10sdk1).maxPerSec = 5 ∧
    (fieldClient c10sdk1).queue = [] ∧
    (fieldClient c10sdk1).count = 0 ∧
    (fieldClient c10sdk1).processing = false ∧
    moduleClient c10sdk1 = moduleClient c10sdk0 :=
  settimeout_fresh_defaults_amended c10sdk0 10000 c10sdk1 rfl (by decide)

end EtherscanNode
